import Mathlib

/-!
Verification development for the Windows EventLog resources database reader
(`plaso/output/winevt_rc.py`).

The three Python classes are embedded shallowly:

* `Sqlite3DatabaseFile` becomes the state type `DbFile` with operations
  `dbOpen`, `dbClose`, `dbHasTable`, `dbGetValues`; Python exceptions are
  modelled as `Except.error` carrying the exception message.
* `WinevtResourcesSqlite3DatabaseReader` operates over a structured `Store`
  value standing for the contents of the SQLite database: each SQL query of
  the source is embedded as the corresponding row filter, with row order in a
  `Store` list standing for the store's query order.
* `WinevtResourcesHelper` becomes `Helper`; its mutable field
  `_winevt_database_reader` is threaded explicitly, and the filesystem /
  sqlite3 environment is a `HelperEnv` record.

Python truthiness (`if not x`) is made explicit via `strTruthy` /
`intProviderTruthy`, so that e.g. a provider key of `0` or an empty string is
falsy, exactly as in the source.
-/

/-- Python truthiness of an optional string: `None` and `''` are falsy. -/
def strTruthy : Option String → Bool
  | none => false
  | some s => s != ""

/-- Python truthiness of an optional integer: `None` and `0` are falsy.
Mirrors `if not event_log_provider_key` in `GetMessage`. -/
def intProviderTruthy : Option Int → Bool
  | none => false
  | some v => v != 0

/-! ## Sqlite3DatabaseFile (the store accessor) -/

/-- State of a `Sqlite3DatabaseFile`: `_connection` and `_cursor` (modelled as
booleans: held or `None`), `filename` and `read_only`. -/
structure DbFile where
  conn : Bool
  cursor : Bool
  filename : Option String
  read_only : Option Bool
deriving DecidableEq

/-- The state produced by `__init__`: everything `None`. -/
def dbFileInit : DbFile :=
  { conn := false, cursor := false, filename := none, read_only := none }

/-- Embeds `Sqlite3DatabaseFile.Close`: raises when not opened, otherwise
commits, closes and clears all four fields. -/
def dbClose (f : DbFile) : Except String DbFile :=
  if !f.conn then .error "Cannot close database not opened."
  else .ok dbFileInit

/-- Embeds `Sqlite3DatabaseFile.HasTable`: raises when not opened, otherwise
reports whether the table exists.  The set of tables of the underlying file is
the parameter `tables`. -/
def dbHasTable (tables : List String) (f : DbFile) (name : String) :
    Except String Bool :=
  if !f.conn then .error "Cannot determine if table exists database not opened."
  else .ok (tables.contains name)

/-- Embeds `Sqlite3DatabaseFile.GetValues`: raises when not opened, otherwise
yields the rows selected by the query.  The rows the query would produce are
the parameter `rows` (each row a column-name/value map, as in the source). -/
def dbGetValues (rows : List (List (String × String))) (f : DbFile) :
    Except String (List (List (String × String))) :=
  if !f.conn then .error "Cannot retrieve values database not opened."
  else .ok rows

/-- Embeds `Sqlite3DatabaseFile.Open`: raises when already opened; sets
`filename` and `read_only` before attempting the connection; returns `False`
when `sqlite3.connect` fails (`connectOk = false`), leaving the file unopened. -/
def dbOpen (connectOk : Bool) (f : DbFile) (filename : String)
    (read_only : Bool) : Except String (Bool × DbFile) :=
  if f.conn then .error "Cannot open database already opened."
  else if !connectOk then
    .ok (false, { conn := false, cursor := false, filename := some filename,
                  read_only := some read_only })
  else
    .ok (true, { conn := true, cursor := true, filename := some filename,
                 read_only := some read_only })

/-! ## The resource store

A `Store` is the logical content of the `winevt-rc.db` SQLite database:

* `providers` — rows of the `event_log_providers` table as
  `(log_source, event_log_provider_key)` pairs;
* `fileAssociations` — rows of `message_file_per_event_log_provider` as
  `(event_log_provider_key, message_file_key)` pairs;
* `messageTables` — the `message_table_<key>_0x<lcid>` tables, keyed by
  `(message_file_key, lcid)`, each a list of
  `(message_identifier, message_string)` rows;
* `metadata` — the optional `metadata` table as `(name, value)` rows
  (`none` when the table does not exist).

List order stands for the order in which the corresponding SQL query returns
rows. -/
structure Store where
  providers : List (String × Int)
  fileAssociations : List (Int × Int)
  messageTables : List ((Int × Nat) × List (Nat × String))
  metadata : Option (List (String × String))
deriving DecidableEq

/-! ## WinevtResourcesSqlite3DatabaseReader: queries -/

/-- Embeds `_GetEventLogProviderKey`: filter `event_log_providers` rows by
exact equality on `log_source`; zero rows → `None`, one row → its key, more →
`RuntimeError`. -/
def getEventLogProviderKey (st : Store) (log_source : String) :
    Except String (Option Int) :=
  match st.providers.filter (fun r => r.1 == log_source) with
  | [] => .ok none
  | [v] => .ok (some v.2)
  | _ => .error "More than one value found in database."

/-- Embeds `_GetMessageFileKeys`: the `message_file_key` column of the rows of
`message_file_per_event_log_provider` matching the provider key, in store
query order. -/
def getMessageFileKeys (st : Store) (event_log_provider_key : Int) : List Int :=
  (st.fileAssociations.filter (fun r => r.1 == event_log_provider_key)).map
    (fun r => r.2)

/-- Embeds `_GetMessage`: if the table `message_table_<key>_0x<lcid>` does not
exist, `None`; otherwise filter its rows by exact equality on the message
identifier; zero rows → `None`, one row → its string, more → `RuntimeError`. -/
def getMessageRaw (st : Store) (message_file_key : Int) (lcid : Nat)
    (message_identifier : Nat) : Except String (Option String) :=
  match st.messageTables.find?
      (fun t => t.1.1 == message_file_key && t.1.2 == lcid) with
  | none => .ok none
  | some t =>
    match t.2.filter (fun r => r.1 == message_identifier) with
    | [] => .ok none
    | [v] => .ok (some v.2)
    | _ => .error "More than one value found in database."

/-- Embeds `GetMetadataAttribute`: `None` when the `metadata` table is absent;
otherwise filter its rows by name; zero rows → `None`, one row → its value,
more → `RuntimeError`. -/
def getMetadataAttribute (st : Store) (attribute_name : String) :
    Except String (Option String) :=
  match st.metadata with
  | none => .ok none
  | some rows =>
    match rows.filter (fun r => r.1 == attribute_name) with
    | [] => .ok none
    | [v] => .ok (some v.2)
    | _ => .error "More than one value found in database."

/-! ## The template normalizer (`_ReformatMessageString`)

The four regex substitution stages are embedded as left-to-right scans over
the character list, each reproducing the leftmost, non-overlapping matching
of the corresponding compiled pattern. -/

/-- The character a `[1-9]` regex class matches. -/
def isDigit19 (c : Char) : Bool := decide (49 ≤ c.toNat ∧ c.toNat ≤ 57)

/-- The character a `[0-9]` regex class matches. -/
def isDigit09 (c : Char) : Bool := decide (48 ≤ c.toNat ∧ c.toNat ≤ 57)

/-- Numeric value of a decimal digit character. -/
def digitVal (c : Char) : Nat := c.toNat - 48

/-- Left curly bracket character. -/
def lbrace : Char := Char.ofNat 123

/-- Right curly bracket character. -/
def rbrace : Char := Char.ofNat 125

/-- Stage 1, `_WHITE_SPACE_SPECIFIER_RE = re.compile(r'(%[0b]|[\r\n])')` with
replacement `''`: delete every `%0`, `%b`, CR and LF. -/
def whiteSpaceSub : List Char → List Char
  | [] => []
  | '%' :: c :: rest =>
    if c == '0' || c == 'b' then whiteSpaceSub rest
    else '%' :: whiteSpaceSub (c :: rest)
  | c :: rest =>
    if c == '\r' || c == '\n' then whiteSpaceSub rest
    else c :: whiteSpaceSub rest

/-- The character class `[ .!%nrt]` of `_TEXT_SPECIFIER_RE`. -/
def isTextSpecifier (c : Char) : Bool :=
  c == ' ' || c == '.' || c == '!' || c == '%' || c == 'n' || c == 'r' ||
    c == 't'

/-- Stage 2, `_TEXT_SPECIFIER_RE = re.compile(r'%([ .!%nrt])')` with
replacement `r'\\\1'`: each matched pair becomes a backslash followed by the
captured character. -/
def textSub : List Char → List Char
  | [] => []
  | '%' :: c :: rest =>
    if isTextSpecifier c then '\\' :: c :: textSub rest
    else '%' :: textSub (c :: rest)
  | c :: rest => c :: textSub rest

/-- Stage 3, `_CURLY_BRACKETS = re.compile(r'([\{\}])')` with replacement
`r'\1\1'`: double every curly bracket. -/
def curlySub : List Char → List Char
  | [] => []
  | c :: rest =>
    if c == lbrace || c == rbrace then c :: c :: curlySub rest
    else c :: curlySub rest

/-- The replacement `_PlaceHolderSpecifierReplacer` produces for a captured
number group `n`: `'{{{0:d}:s}}'.format(n - 1)`, i.e. the characters
`{`, the decimal digits of `n - 1`, `:`, `s`, `}`. -/
def placeHolderSlot (n : Nat) : List Char :=
  lbrace :: (toString n).toList ++ [':', 's', rbrace]

/-- Consume one optional `!`, as the greedy `[!]?` of the placeholder
regex does. -/
def eatBang (l : List Char) : List Char :=
  match l with
  | [] => l
  | c :: rest => if c == '!' then rest else l

/-- Consume one optional `s`, as the greedy `[s]?` of the placeholder
regex does. -/
def eatS (l : List Char) : List Char :=
  match l with
  | [] => l
  | c :: rest => if c == 's' then rest else l

/-- Greedy consumption of the decoration suffix `[!]?[s]?[!]?` of the
placeholder regex. -/
def eatDecor (l : List Char) : List Char := eatBang (eatS (eatBang l))

/-- Fuelled scanner for stage 4,
`_PLACE_HOLDER_SPECIFIER_RE = re.compile(r'%([1-9][0-9]?)[!]?[s]?[!]?')`
substituted through `_PlaceHolderSpecifierReplacer`: a `%` followed by a one-
or two-digit number `n` and greedily by an optional `!`, an optional `s` and
an optional `!` is replaced by the slot for `n - 1`; the decoration characters
are consumed.  Every step consumes at least one character, so fuel equal to
the length of the input never runs out. -/
def phAux : Nat → List Char → List Char
  | 0, l => l
  | _ + 1, [] => []
  | fuel + 1, '%' :: c :: rest =>
    if isDigit19 c then
      match rest with
      | [] => placeHolderSlot (digitVal c - 1)
      | d :: rest2 =>
        if isDigit09 d then
          placeHolderSlot (10 * digitVal c + digitVal d - 1) ++
            phAux fuel (eatDecor rest2)
        else
          placeHolderSlot (digitVal c - 1) ++ phAux fuel (eatDecor rest)
    else '%' :: phAux fuel (c :: rest)
  | fuel + 1, c :: rest => c :: phAux fuel rest

/-- Stage 4 of `_ReformatMessageString`: the placeholder substitution. -/
def placeHolderSub (l : List Char) : List Char := phAux l.length l

/-- The four substitution stages of `_ReformatMessageString`, in source
order, on a non-empty string. -/
def reformatCore (s : String) : String :=
  String.mk (placeHolderSub (curlySub (textSub (whiteSpaceSub s.toList))))

/-- Embeds `_ReformatMessageString` including its leading
`if not message_string: return None` truthiness guard. -/
def reformatMessageString : Option String → Option String
  | none => none
  | some s => if s == "" then none else some (reformatCore s)

/-! ## WinevtResourcesSqlite3DatabaseReader: GetMessage and Open -/

/-- The `for message_file_key in generator` loop of `GetMessage`:
`message_string` is overwritten on every iteration and the loop breaks on the
first truthy (non-`None`, non-empty) string; after the loop the last computed
value remains.  (The preceding `if not generator: return None` of the source
never fires: a generator object is always truthy.) -/
def messageLoop (st : Store) (lcid message_identifier : Nat) :
    List Int → Except String (Option String)
  | [] => .ok none
  | [k] => getMessageRaw st k lcid message_identifier
  | k :: k2 :: rest =>
    match getMessageRaw st k lcid message_identifier with
    | .error e => .error e
    | .ok m =>
      if strTruthy m then .ok m
      else messageLoop st lcid message_identifier (k2 :: rest)

/-- Embeds `GetMessage(log_source, lcid, message_identifier)`: resolve the
provider key (Python truthiness: `None` and `0` short-circuit to `None`),
iterate the message file keys, and reformat the result when the active string
format is `'wrc'`. -/
def readerGetMessage (st : Store) (string_format : String) (log_source : String)
    (lcid message_identifier : Nat) : Except String (Option String) :=
  match getEventLogProviderKey st log_source with
  | .error e => .error e
  | .ok event_log_provider_key =>
    if !intProviderTruthy event_log_provider_key then .ok none
    else
      match messageLoop st lcid message_identifier
          (getMessageFileKeys st (event_log_provider_key.getD 0)) with
      | .error e => .error e
      | .ok message_string =>
        if string_format == "wrc" then .ok (reformatMessageString message_string)
        else .ok message_string

/-- Embeds `WinevtResourcesSqlite3DatabaseReader.Open`: open the database file
read-only (soft `False` when the sqlite3 connection fails), then gate on the
`version` metadata attribute (any falsy or different value raises; formatting
`None` with `'{0:s}'` itself raises `TypeError`), then on `string_format`
(falsy defaults to `'wrc'`; any other value outside `{'pep3101', 'wrc'}`
raises).  Returns the success boolean together with the reader's resulting
`_string_format`. -/
def readerOpen (connectOk : Bool) (st : Store) :
    Except String (Bool × String) :=
  if !connectOk then .ok (false, "wrc")
  else
    match getMetadataAttribute st "version" with
    | .error e => .error e
    | .ok none => .error "unsupported format string passed to NoneType.__format__"
    | .ok (some v) =>
      if v == "" || v != "20150315" then
        .error ("Unsupported version: " ++ v)
      else
        match getMetadataAttribute st "string_format" with
        | .error e => .error e
        | .ok sf0 =>
          let string_format := if !strTruthy sf0 then "wrc" else sf0.getD ""
          if string_format != "pep3101" && string_format != "wrc" then
            .error ("Unsupported string format: " ++ string_format)
          else .ok (true, string_format)

/-! ## WinevtResourcesHelper -/

/-- A successfully-or-partially constructed
`WinevtResourcesSqlite3DatabaseReader` as the helper holds it: the store its
database file is connected to and its `_string_format` field. -/
structure Reader where
  store : Store
  stringFormat : String
deriving DecidableEq

/-- LCID 0x0409 is en-US (`WinevtResourcesHelper.DEFAULT_LCID`). -/
def DEFAULT_LCID : Nat := 0x0409

/-- State of a `WinevtResourcesHelper`: the configured data location, the
configured LCID (`lcid or DEFAULT_LCID` is applied in `__init__`), and the
mutable `_winevt_database_reader` field. -/
structure Helper where
  data_location : Option String
  lcid : Nat
  reader : Option Reader
deriving DecidableEq

/-- Environment of the helper: whether `os.path.isfile` finds the database
file, whether `sqlite3.connect` succeeds on it, and the content of the store. -/
structure HelperEnv where
  fileExists : Bool
  connectOk : Bool
  store : Store
deriving DecidableEq

/-- Embeds `_GetWinevtRcDatabaseReader`, returning the call's outcome together
with the helper state after the call.  The fresh reader object is assigned to
`self._winevt_database_reader` *before* `Open` is called on it, so when `Open`
raises, the helper keeps that reader (with its default `'wrc'` string format
and its database file connected to the store); the exception escapes. -/
def getWinevtRcDatabaseReader (env : HelperEnv) (h : Helper) :
    Except String (Option Reader) × Helper :=
  if h.reader.isNone && strTruthy h.data_location then
    if !env.fileExists then (.ok none, h)
    else
      let fresh : Reader := { store := env.store, stringFormat := "wrc" }
      let h1 : Helper := { h with reader := some fresh }
      match readerOpen env.connectOk env.store with
      | .error e => (.error e, h1)
      | .ok (true, sf) =>
        let r : Reader := { store := env.store, stringFormat := sf }
        (.ok (some r), { h with reader := some r })
      | .ok (false, _) => (.ok none, { h with reader := none })
  else (.ok h.reader, h)

/-- The language-fallback body of `GetMessageString` once a database reader is
available: a configured LCID different from the default is tried first and its
result returned when truthy, otherwise the default LCID is tried.  The second
component records the LCIDs passed to `database_reader.GetMessage`, in call
order. -/
def helperLookup (r : Reader) (lcid : Nat) (log_source : String)
    (message_identifier : Nat) : Except String (Option String) × List Nat :=
  if lcid != DEFAULT_LCID then
    match readerGetMessage r.store r.stringFormat log_source lcid
        message_identifier with
    | .error e => (.error e, [lcid])
    | .ok m =>
      if strTruthy m then (.ok m, [lcid])
      else
        (readerGetMessage r.store r.stringFormat log_source DEFAULT_LCID
          message_identifier, [lcid, DEFAULT_LCID])
  else
    (readerGetMessage r.store r.stringFormat log_source DEFAULT_LCID
      message_identifier, [DEFAULT_LCID])

/-- Embeds `WinevtResourcesHelper.GetMessageString`: acquire the database
reader lazily (`None` reader → `None` result), then run the language-fallback
lookup.  Returns the outcome, the helper state after the call, and the list of
LCIDs passed to `database_reader.GetMessage`. -/
def helperGetMessageString (env : HelperEnv) (h : Helper) (log_source : String)
    (message_identifier : Nat) :
    Except String (Option String) × Helper × List Nat :=
  match getWinevtRcDatabaseReader env h with
  | (.error e, h1) => (.error e, h1, [])
  | (.ok none, h1) => (.ok none, h1, [])
  | (.ok (some r), h1) =>
    let res := helperLookup r h1.lcid log_source message_identifier
    (res.1, h1, res.2)

/-! ## Specification-side definitions (for the refinement claim)

These are written from the specification's wording of the top-level
`getMessage` contract, to be compared with the embedded `readerGetMessage`. -/

/-- The spec's per-table lookup: a missing table or a missing identifier row
is a miss; otherwise the row's message string. -/
def specMessageLookup (st : Store) (message_file_key : Int)
    (lcid message_identifier : Nat) : Option String :=
  match st.messageTables.find?
      (fun t => t.1.1 == message_file_key && t.1.2 == lcid) with
  | none => none
  | some t => (t.2.find? (fun r => r.1 == message_identifier)).map
      (fun r => r.2)

/-- The spec's top-level lookup: resolve the provider key (miss → none);
iterate message-file keys in store order, short-circuiting on the first key
whose table yields a non-empty string; under the native format `'wrc'` pass
the result through the normalizer, under `'pep3101'` return it unchanged. -/
def specGetMessage (st : Store) (string_format log_source : String)
    (lcid message_identifier : Nat) : Option String :=
  match st.providers.find? (fun r => r.1 == log_source) with
  | none => none
  | some p =>
    let keys := (st.fileAssociations.filter (fun r => r.1 == p.2)).map
      (fun r => r.2)
    match keys.findSome? (fun fk =>
        match specMessageLookup st fk lcid message_identifier with
        | none => none
        | some s => if s != "" then some s else none) with
    | none => none
    | some s => if string_format == "wrc" then some (reformatCore s) else some s

/-- Well-formedness of a store, as the refinement claim presupposes: log
sources identify at most one provider row, provider keys are non-zero (the
key `0` edge case is a separate claim), message identifiers are unique within
a table, and stored message strings are non-empty. -/
def wellFormedStore (st : Store) : Prop :=
  (st.providers.map Prod.fst).Nodup ∧
  (∀ p ∈ st.providers, p.2 ≠ 0) ∧
  (∀ t ∈ st.messageTables, (t.2.map Prod.fst).Nodup) ∧
  (∀ t ∈ st.messageTables, ∀ r ∈ t.2, r.2 ≠ "")

instance (st : Store) : Decidable (wellFormedStore st) := by
  unfold wellFormedStore; infer_instance

/-! ## Statement helpers for the placeholder-specifier claim -/

/-- Decimal digits of a one- or two-digit number, as they appear in a message
string matched by `[1-9][0-9]?`. -/
def natChars (n : Nat) : List Char :=
  if n < 10 then [Char.ofNat (48 + n)]
  else [Char.ofNat (48 + n / 10), Char.ofNat (48 + n % 10)]

/-- The seven character sequences the greedy decoration suffix `[!]?[s]?[!]?`
can consume: an optional `!`, an optional `s`, an optional `!`. -/
def decorations : List (List Char) :=
  [[], ['!'], ['s'], ['!', 's'], ['s', '!'], ['!', '!'], ['!', 's', '!']]

/-- A suffix whose first character cannot extend a placeholder match: not a
digit, not `!`, not `s`. -/
def headSafe : List Char → Bool
  | [] => true
  | c :: _ => !isDigit09 c && c != '!' && c != 's'

/-! ## Concrete stores, environments and helpers used by the claims -/

/-- The end-to-end example store of the specification: provider
`"Application Error"` → key 7, file association 7 → [3], message table
`(3, en-US)` mapping identifier 1 to `"Process %1 failed with %2!s!"`. -/
def exampleStore : Store :=
  { providers := [("Application Error", 7)]
    fileAssociations := [(7, 3)]
    messageTables := [((3, 0x0409), [(1, "Process %1 failed with %2!s!")])]
    metadata := some [("version", "20150315")] }

/-- A store reporting the unsupported schema version `"20140101"`. -/
def stBadVersion : Store :=
  { providers := [("Application Error", 7)]
    fileAssociations := [(7, 3)]
    messageTables := [((3, 0x0409), [(1, "Process %1 failed with %2!s!")])]
    metadata := some [("version", "20140101")] }

/-- A store whose `string_format` metadata attribute is present but empty. -/
def stEmptyFormat : Store :=
  { providers := []
    fileAssociations := []
    messageTables := []
    metadata := some [("version", "20150315"), ("string_format", "")] }

/-- A store holding a message only in the default-language (en-US) table. -/
def stFallback : Store :=
  { providers := [("App", 5)]
    fileAssociations := [(5, 2)]
    messageTables := [((2, 0x0409), [(3, "hello %1")])]
    metadata := some [("version", "20150315")] }

/-- A store in which a log source's provider key is stored as the integer 0,
with a message table of that provider containing the identifier. -/
def stZeroKey : Store :=
  { providers := [("Zero Source", 0)]
    fileAssociations := [(0, 3)]
    messageTables := [((3, 0x0409), [(1, "a message %1")])]
    metadata := some [("version", "20150315")] }

/-- A store with two `event_log_providers` rows for the same log source. -/
def stDupProvider : Store :=
  { providers := [("Dup Source", 1), ("Dup Source", 2)]
    fileAssociations := []
    messageTables := []
    metadata := some [("version", "20150315")] }

/-- Environment with an existing, connectable database file over a store. -/
def envOver (st : Store) : HelperEnv :=
  { fileExists := true, connectOk := true, store := st }

/-- A freshly initialized helper with a configured data location and the
default LCID. -/
def freshHelper : Helper :=
  { data_location := some "data", lcid := DEFAULT_LCID, reader := none }

/-- The helper state left behind after the reader's `Open` raised during lazy
acquisition over store `st`: the partially constructed reader is retained. -/
def brokenHelper (st : Store) : Helper :=
  { data_location := some "data", lcid := DEFAULT_LCID,
    reader := some { store := st, stringFormat := "wrc" } }

/-- A helper configured with the non-default LCID 0x0407 over `stFallback`,
with its database reader already acquired. -/
def germanHelper : Helper :=
  { data_location := some "data", lcid := 0x0407,
    reader := some { store := stFallback, stringFormat := "wrc" } }

/-! ## Claims about the accessor and the simple lookups -/

/-- C4: for every open store and log source, the provider-key lookup returns
none on zero matching rows, the stored key on exactly one matching row, and
raises the corruption error on two or more matching rows. -/
theorem claim_C4 : ∀ (st : Store) (log_source : String),
    (st.providers.filter (fun r => r.1 == log_source) = [] →
      getEventLogProviderKey st log_source = .ok none) ∧
    (∀ p, st.providers.filter (fun r => r.1 == log_source) = [p] →
      getEventLogProviderKey st log_source = .ok (some p.2)) ∧
    (2 ≤ (st.providers.filter (fun r => r.1 == log_source)).length →
      getEventLogProviderKey st log_source =
        .error "More than one value found in database.") := by
  intro st ls
  refine ⟨?_, ?_, ?_⟩
  · intro h; unfold getEventLogProviderKey; rw [h]
  · intro p h; unfold getEventLogProviderKey; rw [h]
  · intro h
    unfold getEventLogProviderKey
    cases hf : st.providers.filter (fun r => r.1 == ls) with
    | nil => rw [hf] at h; simp at h
    | cons a t =>
      cases t with
      | nil => rw [hf] at h; simp at h
      | cons b u => rfl

/-- Witness for C4: on the store with two rows for `"Dup Source"`, the lookup
raises the corruption error rather than picking the first row. -/
theorem claim_C4_witness :
    2 ≤ (stDupProvider.providers.filter (fun r => r.1 == "Dup Source")).length ∧
    getEventLogProviderKey stDupProvider "Dup Source" =
      .error "More than one value found in database." :=
  ⟨by decide, (claim_C4 stDupProvider "Dup Source").2.2 (by decide)⟩

/-- C9: operating on an unopened accessor raises the usage errors, opening an
already-open accessor raises, and a successful close clears the connection,
cursor, filename and read-only flag and allows reopening. -/
theorem claim_C9 : ∀ (f : DbFile) (tables : List String)
    (rows : List (List (String × String))) (connectOk : Bool)
    (name filename : String) (ro : Bool),
    (f.conn = false →
      dbHasTable tables f name =
        .error "Cannot determine if table exists database not opened." ∧
      dbGetValues rows f = .error "Cannot retrieve values database not opened." ∧
      dbClose f = .error "Cannot close database not opened.") ∧
    (f.conn = true →
      dbOpen connectOk f filename ro =
        .error "Cannot open database already opened.") ∧
    (f.conn = true →
      dbClose f = .ok dbFileInit ∧
      dbFileInit.conn = false ∧ dbFileInit.cursor = false ∧
      dbFileInit.filename = none ∧ dbFileInit.read_only = none ∧
      dbOpen true dbFileInit filename ro =
        .ok (true, { conn := true, cursor := true, filename := some filename,
                     read_only := some ro })) := by
  intro f tables rows connectOk name fn ro
  refine ⟨?_, ?_, ?_⟩ <;> intro h <;>
    simp [dbHasTable, dbGetValues, dbClose, dbOpen, dbFileInit, h]

/-- Witness for C9: closing the freshly initialized accessor raises, and
opening an already-open accessor raises. -/
theorem claim_C9_witness :
    dbClose dbFileInit = .error "Cannot close database not opened." ∧
    dbOpen true
      { conn := true, cursor := true, filename := some "winevt-rc.db",
        read_only := some true } "winevt-rc.db" true =
      .error "Cannot open database already opened." :=
  ⟨((claim_C9 dbFileInit [] [] true "metadata" "winevt-rc.db" true).1 rfl).2.2,
   (claim_C9
     { conn := true, cursor := true, filename := some "winevt-rc.db",
       read_only := some true } [] [] true "metadata" "winevt-rc.db" true).2.1
     rfl⟩

/-- C10: when a log source's provider key is stored as the integer 0, the
top-level `GetMessage` returns none regardless of the message tables, because
the key is tested for Python truthiness rather than for presence. -/
theorem claim_C10 : ∀ (st : Store) (string_format log_source : String)
    (lcid message_identifier : Nat),
    getEventLogProviderKey st log_source = .ok (some 0) →
    readerGetMessage st string_format log_source lcid message_identifier =
      .ok none := by
  intro st sf ls lcid mid h
  unfold readerGetMessage
  rw [h]
  rfl

/-- Witness for C10: in `stZeroKey` the provider resolves to key 0, the
message table of its message file contains identifier 1, and yet the lookup
returns none. -/
theorem claim_C10_witness :
    getEventLogProviderKey stZeroKey "Zero Source" = .ok (some 0) ∧
    getMessageFileKeys stZeroKey 0 = [3] ∧
    getMessageRaw stZeroKey 3 DEFAULT_LCID 1 = .ok (some "a message %1") ∧
    readerGetMessage stZeroKey "wrc" "Zero Source" DEFAULT_LCID 1 = .ok none :=
  ⟨rfl, rfl, rfl, claim_C10 stZeroKey "wrc" "Zero Source" DEFAULT_LCID 1 rfl⟩

/-- C8: the normalizer is not idempotent: normalizing a lone curly bracket
gives a doubled bracket, and normalizing that output again doubles it once
more instead of leaving it fixed. -/
theorem claim_C8 : ∃ s t : String,
    reformatMessageString (some s) = some t ∧
    reformatMessageString (some t) ≠ some t := by
  refine ⟨"\x7b", "\x7b\x7b", rfl, by decide⟩

/-! ## Claims about opening the reader (schema and format gate) -/

/-- Counterexample for C3: `stEmptyFormat` stores a present `string_format`
attribute whose value is the empty string — which is neither `'pep3101'` nor
`'wrc'` — and yet `Open` succeeds (the empty string is falsy in Python, so the
source treats it as absent and defaults to `'wrc'`). -/
theorem claim_C3_counterexample :
    getMetadataAttribute stEmptyFormat "string_format" = .ok (some "") ∧
    ("" : String) ≠ "pep3101" ∧ ("" : String) ≠ "wrc" ∧
    readerOpen true stEmptyFormat = .ok (true, "wrc") :=
  ⟨rfl, by decide, by decide, rfl⟩

/-- C3 (amended): `Open` fails fatally whenever the `version` metadata
attribute lookup yields anything other than `"20150315"` — including the
concrete store reporting `"20140101"` — and fails fatally when
`string_format` is present and non-empty but neither `'pep3101'` nor `'wrc'`;
an absent *or empty* `string_format` defaults to `'wrc'` and `Open`
succeeds. -/
theorem claim_C3 :
    (∀ (st : Store) (v : Option String),
      getMetadataAttribute st "version" = .ok v → v ≠ some "20150315" →
      ∃ e, readerOpen true st = .error e) ∧
    readerOpen true stBadVersion = .error "Unsupported version: 20140101" ∧
    (∀ (st : Store) (f : String),
      getMetadataAttribute st "version" = .ok (some "20150315") →
      getMetadataAttribute st "string_format" = .ok (some f) →
      f ≠ "" → f ≠ "pep3101" → f ≠ "wrc" →
      readerOpen true st = .error ("Unsupported string format: " ++ f)) ∧
    (∀ (st : Store) (sf : Option String),
      getMetadataAttribute st "version" = .ok (some "20150315") →
      getMetadataAttribute st "string_format" = .ok sf →
      (sf = none ∨ sf = some "") →
      readerOpen true st = .ok (true, "wrc")) := by
  refine ⟨?_, rfl, ?_, ?_⟩
  · intro st v hv hne
    unfold readerOpen
    rw [hv]
    match v, hne with
    | none, _ => exact ⟨_, rfl⟩
    | some s, hne =>
      have hs : s ≠ "20150315" := fun hh => hne (by rw [hh])
      have hb : (s != "20150315") = true := by
        simp only [bne_iff_ne, ne_eq]; exact hs
      simp only [Bool.not_true, Bool.false_eq_true, if_false, hb,
        Bool.or_true, if_true]
      exact ⟨_, rfl⟩
  · intro st f hv hf hne hp hw
    unfold readerOpen
    rw [hv, hf]
    have h1 : (f != "pep3101") = true := by
      simp only [bne_iff_ne, ne_eq]; exact hp
    have h2 : (f != "wrc") = true := by
      simp only [bne_iff_ne, ne_eq]; exact hw
    have h3 : strTruthy (some f) = true := by
      simp only [strTruthy, bne_iff_ne, ne_eq]; exact hne
    simp [h1, h2, h3, strTruthy, Option.getD, hne, hp, hw]
  · intro st sf hv hf hsf
    unfold readerOpen
    rw [hv, hf]
    rcases hsf with h | h <;> subst h <;> simp [strTruthy]

/-- Witness for C3: `stBadVersion` reports version `"20140101"`, which is not
the supported version, and its open fails fatally. -/
theorem claim_C3_witness :
    getMetadataAttribute stBadVersion "version" = .ok (some "20140101") ∧
    (some "20140101" : Option String) ≠ some "20150315" ∧
    ∃ e, readerOpen true stBadVersion = .error e :=
  ⟨rfl, by decide, claim_C3.1 stBadVersion (some "20140101") rfl (by decide)⟩

/-! ## Claims about the resolution helper -/

/-- Counterexample for C1: over a store whose reader `Open` raises the fatal
schema error, the very first `GetMessageString` call lets that fatal error
escape to the caller instead of returning a string or none. -/
theorem claim_C1_counterexample :
    (helperGetMessageString (envOver stBadVersion) freshHelper
      "Application Error" 1).1 = .error "Unsupported version: 20140101" := rfl

/-- C1 (amended): when the store file exists but the reader's `Open` raises a
fatal compatibility error, the first `GetMessageString` call propagates that
fatal error to the caller; the helper retains the partially constructed
reader (native `'wrc'` format over the store), so subsequent calls do not
retry opening — they leave the helper state unchanged and perform lookups
through the retained reader rather than treating the resolver as
unavailable. -/
theorem claim_C1 : ∀ (env : HelperEnv) (h : Helper) (log_source : String)
    (message_identifier : Nat) (e : String),
    h.reader = none → strTruthy h.data_location = true →
    env.fileExists = true →
    readerOpen env.connectOk env.store = .error e →
    helperGetMessageString env h log_source message_identifier =
      (.error e,
       { h with reader := some { store := env.store, stringFormat := "wrc" } },
       []) ∧
    (∀ (ls2 : String) (mid2 : Nat),
      helperGetMessageString env
          { h with reader := some { store := env.store, stringFormat := "wrc" } }
          ls2 mid2 =
        ((helperLookup { store := env.store, stringFormat := "wrc" } h.lcid
            ls2 mid2).1,
         { h with reader := some { store := env.store, stringFormat := "wrc" } },
         (helperLookup { store := env.store, stringFormat := "wrc" } h.lcid
            ls2 mid2).2)) := by
  intro env h ls mid e hr hd hf hopen
  constructor
  · unfold helperGetMessageString getWinevtRcDatabaseReader
    rw [hr, hd, hf, hopen]
    rfl
  · intro ls2 mid2
    unfold helperGetMessageString getWinevtRcDatabaseReader
    simp

/-- Witness for C1 (amended): over `stBadVersion`, the first call on a fresh
helper yields the fatal error and leaves the broken reader cached; the second
call leaves the state unchanged and goes through the retained reader. -/
theorem claim_C1_witness :
    helperGetMessageString (envOver stBadVersion) freshHelper
        "Application Error" 1 =
      (.error "Unsupported version: 20140101", brokenHelper stBadVersion, []) ∧
    helperGetMessageString (envOver stBadVersion) (brokenHelper stBadVersion)
        "Application Error" 1 =
      ((helperLookup { store := stBadVersion, stringFormat := "wrc" }
          DEFAULT_LCID "Application Error" 1).1,
       brokenHelper stBadVersion,
       (helperLookup { store := stBadVersion, stringFormat := "wrc" }
          DEFAULT_LCID "Application Error" 1).2) :=
  ⟨(claim_C1 (envOver stBadVersion) freshHelper "Application Error" 1
      "Unsupported version: 20140101" rfl rfl rfl rfl).1,
   (claim_C1 (envOver stBadVersion) freshHelper "Application Error" 1
      "Unsupported version: 20140101" rfl rfl rfl rfl).2 "Application Error" 1⟩

/-- C7: with an available resolver, a helper configured at the default LCID
performs exactly one lookup, at the default LCID; a helper configured at a
different LCID looks that LCID up first, returns its result when truthy, and
otherwise returns the result of a second lookup at the default LCID. -/
theorem claim_C7 : ∀ (env : HelperEnv) (h : Helper) (r : Reader)
    (log_source : String) (message_identifier : Nat),
    h.reader = some r →
    (h.lcid = DEFAULT_LCID →
      helperGetMessageString env h log_source message_identifier =
        (readerGetMessage r.store r.stringFormat log_source DEFAULT_LCID
          message_identifier, h, [DEFAULT_LCID])) ∧
    (h.lcid ≠ DEFAULT_LCID → ∀ m,
      readerGetMessage r.store r.stringFormat log_source h.lcid
          message_identifier = .ok m →
      (strTruthy m = true →
        helperGetMessageString env h log_source message_identifier =
          (.ok m, h, [h.lcid])) ∧
      (strTruthy m = false →
        helperGetMessageString env h log_source message_identifier =
          (readerGetMessage r.store r.stringFormat log_source DEFAULT_LCID
            message_identifier, h, [h.lcid, DEFAULT_LCID]))) := by
  intro env h r ls mid hr
  have hacq : getWinevtRcDatabaseReader env h = (.ok (some r), h) := by
    unfold getWinevtRcDatabaseReader
    rw [hr]
    simp
  constructor
  · intro hdef
    unfold helperGetMessageString
    rw [hacq]
    show ((helperLookup r h.lcid ls mid).1, h,
      (helperLookup r h.lcid ls mid).2) = _
    unfold helperLookup
    rw [hdef]
    simp
  · intro hne m hm
    have hb : (h.lcid != DEFAULT_LCID) = true := by
      simp only [bne_iff_ne, ne_eq]; exact hne
    constructor <;> intro htr <;>
      · unfold helperGetMessageString
        rw [hacq]
        show ((helperLookup r h.lcid ls mid).1, h,
          (helperLookup r h.lcid ls mid).2) = _
        unfold helperLookup
        rw [hb, hm]
        simp [htr]

/-- Witness for C7: over `stFallback`, the helper configured at LCID 0x0407
misses at 0x0407 (no such message table) and returns the message found at the
default LCID, normalized, without raising. -/
theorem claim_C7_witness :
    germanHelper.reader = some { store := stFallback, stringFormat := "wrc" } ∧
    germanHelper.lcid ≠ DEFAULT_LCID ∧
    readerGetMessage stFallback "wrc" "App" 0x0407 3 = .ok none ∧
    helperGetMessageString (envOver stFallback) germanHelper "App" 3 =
      (readerGetMessage stFallback "wrc" "App" DEFAULT_LCID 3, germanHelper,
       [0x0407, DEFAULT_LCID]) ∧
    readerGetMessage stFallback "wrc" "App" DEFAULT_LCID 3 =
      .ok (some "hello \x7b0:s\x7d") :=
  ⟨rfl, by decide, rfl,
   ((claim_C7 (envOver stFallback) germanHelper
       { store := stFallback, stringFormat := "wrc" } "App" 3 rfl).2
     (by decide) none rfl).2 rfl,
   rfl⟩

/-! ## Claims about the normalizer pipeline -/

/-- C5: the normalizer applies whitespace-specifier removal, text-specifier
expansion, curly-brace doubling and placeholder conversion in exactly that
order, and applied once to `"%1 has {0} %%"` the stages produce, in turn, the
unchanged string, `"%1 has {0} \%"`, `"%1 has {{0}} \%"` and finally
`"{0:s} has {{0}} \%"`. -/
theorem claim_C5 :
    (∀ s : String, reformatCore s =
      String.mk (placeHolderSub (curlySub (textSub (whiteSpaceSub s.toList))))) ∧
    whiteSpaceSub ("%1 has \x7b0\x7d %%".toList) =
      "%1 has \x7b0\x7d %%".toList ∧
    textSub ("%1 has \x7b0\x7d %%".toList) = "%1 has \x7b0\x7d \\%".toList ∧
    curlySub ("%1 has \x7b0\x7d \\%".toList) =
      "%1 has \x7b\x7b0\x7d\x7d \\%".toList ∧
    placeHolderSub ("%1 has \x7b\x7b0\x7d\x7d \\%".toList) =
      "\x7b0:s\x7d has \x7b\x7b0\x7d\x7d \\%".toList ∧
    reformatMessageString (some "%1 has \x7b0\x7d %%") =
      some "\x7b0:s\x7d has \x7b\x7b0\x7d\x7d \\%" :=
  ⟨fun _ => rfl, rfl, rfl, rfl, rfl, rfl⟩

/-! ## Lemmas about the placeholder scanner -/

theorem phAux_nil (f : Nat) : phAux f ([] : List Char) = [] := by
  cases f with
  | zero => rfl
  | succ n => rfl

theorem eatBang_length (l : List Char) : (eatBang l).length ≤ l.length := by
  cases l with
  | nil => simp [eatBang]
  | cons c rest =>
    simp only [eatBang]
    split <;> simp

theorem eatS_length (l : List Char) : (eatS l).length ≤ l.length := by
  cases l with
  | nil => simp [eatS]
  | cons c rest =>
    simp only [eatS]
    split <;> simp

theorem eatDecor_length (l : List Char) : (eatDecor l).length ≤ l.length :=
  le_trans (eatBang_length _) (le_trans (eatS_length _) (eatBang_length _))

theorem phAux_fuel_eq (f : Nat) : ∀ (g : Nat) (l : List Char),
    l.length ≤ f → l.length ≤ g → phAux f l = phAux g l := by
  induction f with
  | zero =>
    intro g l hf _
    have hl : l = [] := List.length_eq_zero.mp (Nat.le_zero.mp hf)
    subst hl
    rw [phAux_nil, phAux_nil]
  | succ f ih =>
    intro g l hf hg
    cases l with
    | nil => rw [phAux_nil, phAux_nil]
    | cons c rest =>
      cases g with
      | zero => simp at hg
      | succ g =>
        by_cases hc : c = '%'
        · subst hc
          cases rest with
          | nil =>
            rw [show phAux (f + 1) ['%'] = '%' :: phAux f [] from rfl,
              show phAux (g + 1) ['%'] = '%' :: phAux g [] from rfl,
              phAux_nil, phAux_nil]
          | cons d rest2 =>
            cases rest2 with
            | nil =>
              rw [phAux.eq_3, phAux.eq_3]
              by_cases h19 : isDigit19 d = true
              · simp [h19]
              · simp only [h19, if_false]
                have : phAux f [d] = phAux g [d] := by
                  apply ih <;> simp_all
                rw [this]
            | cons e rest3 =>
              rw [phAux.eq_4, phAux.eq_4]
              simp only [List.length_cons] at hf hg
              by_cases h19 : isDigit19 d = true
              · simp only [h19, if_true]
                by_cases h09 : isDigit09 e = true
                · simp only [h09, if_true]
                  have : phAux f (eatDecor rest3) = phAux g (eatDecor rest3) := by
                    apply ih <;>
                      have := eatDecor_length rest3 <;> omega
                  rw [this]
                · have : phAux f (eatDecor (e :: rest3)) =
                      phAux g (eatDecor (e :: rest3)) := by
                    apply ih <;>
                      have := eatDecor_length (e :: rest3) <;>
                      simp only [List.length_cons] at this ⊢ <;> omega
                  simp [h09, this]
              · have : phAux f (d :: e :: rest3) = phAux g (d :: e :: rest3) := by
                  apply ih <;> simp only [List.length_cons] <;> omega
                simp [h19, this]
        · have h5f := phAux.eq_5 f c rest (fun c1 r1 hcc _ => hc hcc)
          have h5g := phAux.eq_5 g c rest (fun c1 r1 hcc _ => hc hcc)
          rw [h5f, h5g]
          simp only [List.length_cons] at hf hg
          have : phAux f rest = phAux g rest := by apply ih <;> omega
          rw [this]

theorem phAux_eq_sub (f : Nat) (l : List Char) (h : l.length ≤ f) :
    phAux f l = placeHolderSub l :=
  phAux_fuel_eq f l.length l h le_rfl

theorem charDigit_toNat (k : Nat) (h : k ≤ 9) :
    (Char.ofNat (48 + k)).toNat = 48 + k := by
  interval_cases k <;> rfl

theorem isDigit19_char (k : Nat) (h1 : 1 ≤ k) (h9 : k ≤ 9) :
    isDigit19 (Char.ofNat (48 + k)) = true := by
  simp only [isDigit19, charDigit_toNat k h9, decide_eq_true_eq]
  omega

theorem isDigit09_char (k : Nat) (h9 : k ≤ 9) :
    isDigit09 (Char.ofNat (48 + k)) = true := by
  simp only [isDigit09, charDigit_toNat k h9, decide_eq_true_eq]
  omega

theorem digitVal_char (k : Nat) (h9 : k ≤ 9) :
    digitVal (Char.ofNat (48 + k)) = k := by
  simp [digitVal, charDigit_toNat k h9]

theorem eatDecor_append (decor rest : List Char) (hd : decor ∈ decorations)
    (hr : headSafe rest = true) : eatDecor (decor ++ rest) = rest := by
  have hbang : eatBang rest = rest := by
    cases rest with
    | nil => rfl
    | cons c r =>
      simp only [headSafe, Bool.and_eq_true, bne_iff_ne, ne_eq] at hr
      simp [eatBang, hr.1.2]
  have hes : eatS rest = rest := by
    cases rest with
    | nil => rfl
    | cons c r =>
      simp only [headSafe, Bool.and_eq_true, bne_iff_ne, ne_eq] at hr
      simp [eatS, hr.2]
  fin_cases hd
  · unfold eatDecor
    rw [List.nil_append, hbang, hes, hbang]
  · unfold eatDecor
    rw [List.cons_append, List.nil_append,
      show ∀ l : List Char, eatBang ('!' :: l) = l from fun _ => rfl, hes, hbang]
  · unfold eatDecor
    rw [List.cons_append, List.nil_append,
      show ∀ l : List Char, eatBang ('s' :: l) = 's' :: l from fun _ => rfl,
      show ∀ l : List Char, eatS ('s' :: l) = l from fun _ => rfl, hbang]
  · unfold eatDecor
    simp only [List.cons_append, List.nil_append]
    rw [show ∀ l : List Char, eatBang ('!' :: l) = l from fun _ => rfl,
      show ∀ l : List Char, eatS ('s' :: l) = l from fun _ => rfl, hbang]
  · unfold eatDecor
    simp only [List.cons_append, List.nil_append]
    rfl
  · unfold eatDecor
    simp only [List.cons_append, List.nil_append]
    rfl
  · unfold eatDecor
    simp only [List.cons_append, List.nil_append]
    rfl

theorem placeHolderSub_percent_digit (c : Char) (tail : List Char)
    (h19 : isDigit19 c = true) :
    placeHolderSub ('%' :: c :: tail) =
      match tail with
      | [] => placeHolderSlot (digitVal c - 1)
      | d :: rest2 =>
        if isDigit09 d then
          placeHolderSlot (10 * digitVal c + digitVal d - 1) ++
            placeHolderSub (eatDecor rest2)
        else placeHolderSlot (digitVal c - 1) ++ placeHolderSub (eatDecor tail) := by
  cases tail with
  | nil =>
    show phAux 2 ['%', c] = _
    rw [phAux.eq_3]
    simp [h19]
  | cons d rest2 =>
    show phAux (rest2.length + 3) ('%' :: c :: d :: rest2) = _
    rw [phAux.eq_4]
    simp only [h19, if_true]
    by_cases h09 : isDigit09 d = true
    · have hlen : (eatDecor rest2).length ≤ rest2.length + 1 :=
        le_trans (eatDecor_length rest2) (Nat.le_succ _)
      rw [phAux_eq_sub (rest2.length + 1 + 1) (eatDecor rest2)
        (le_trans hlen (Nat.le_succ _))]
      simp [h09]
    · have hlen : (eatDecor (d :: rest2)).length ≤ rest2.length + 1 := by
        have := eatDecor_length (d :: rest2)
        simpa using this
      rw [phAux_eq_sub (rest2.length + 1 + 1) (eatDecor (d :: rest2))
        (le_trans hlen (Nat.le_succ _))]
      simp [h09]

/-- C6: in the placeholder stage, every `%` followed by a one- or two-digit
number `n` in 1–99, optionally followed by the decoration characters (an
optional `!`, an optional `s`, an optional `!`), becomes the string-typed slot
for `n - 1` with the decorations consumed and discarded; in particular
`"%1 failed with %2!s!"` normalizes to `"{0:s} failed with {1:s}"`. -/
theorem claim_C6 :
    (∀ (n : Nat) (decor rest : List Char), 1 ≤ n → n ≤ 99 →
      decor ∈ decorations → headSafe rest = true →
      placeHolderSub ('%' :: (natChars n ++ decor ++ rest)) =
        placeHolderSlot (n - 1) ++ placeHolderSub rest) ∧
    placeHolderSub ("%1 failed with %2!s!".toList) =
      "\x7b0:s\x7d failed with \x7b1:s\x7d".toList := by
  constructor
  · intro n decor rest h1 h99 hd hr
    by_cases hn : n < 10
    · have hnat : natChars n = [Char.ofNat (48 + n)] := by simp [natChars, hn]
      rw [hnat]
      have h19 : isDigit19 (Char.ofNat (48 + n)) = true :=
        isDigit19_char n h1 (by omega)
      have hdv : digitVal (Char.ofNat (48 + n)) = n := digitVal_char n (by omega)
      rw [show ([Char.ofNat (48 + n)] ++ decor ++ rest) =
        Char.ofNat (48 + n) :: (decor ++ rest) by simp]
      rw [placeHolderSub_percent_digit _ _ h19]
      fin_cases hd
      · simp only [List.nil_append]
        cases rest with
        | nil => simp [hdv, show placeHolderSub ([] : List Char) = [] from rfl]
        | cons e r =>
          have h9 : isDigit09 e = false := by
            simp only [headSafe, Bool.and_eq_true, bne_iff_ne, ne_eq] at hr
            simpa using hr.1.1
          have hE : eatDecor (e :: r) = e :: r := by
            have := eatDecor_append [] (e :: r) (by simp [decorations]) hr
            simpa using this
          simp [h9, hdv, hE]
      · have hE := eatDecor_append ['!'] rest (by simp [decorations]) hr
        simp only [List.cons_append, List.nil_append] at hE ⊢
        simp [hdv, hE, show isDigit09 '!' = false from rfl]
      · have hE := eatDecor_append ['s'] rest (by simp [decorations]) hr
        simp only [List.cons_append, List.nil_append] at hE ⊢
        simp [hdv, hE, show isDigit09 's' = false from rfl]
      · have hE := eatDecor_append ['!', 's'] rest (by simp [decorations]) hr
        simp only [List.cons_append, List.nil_append] at hE ⊢
        simp [hdv, hE, show isDigit09 '!' = false from rfl]
      · have hE := eatDecor_append ['s', '!'] rest (by simp [decorations]) hr
        simp only [List.cons_append, List.nil_append] at hE ⊢
        simp [hdv, hE, show isDigit09 's' = false from rfl]
      · have hE := eatDecor_append ['!', '!'] rest (by simp [decorations]) hr
        simp only [List.cons_append, List.nil_append] at hE ⊢
        simp [hdv, hE, show isDigit09 '!' = false from rfl]
      · have hE := eatDecor_append ['!', 's', '!'] rest (by simp [decorations]) hr
        simp only [List.cons_append, List.nil_append] at hE ⊢
        simp [hdv, hE, show isDigit09 '!' = false from rfl]
    · have hnat : natChars n =
          [Char.ofNat (48 + n / 10), Char.ofNat (48 + n % 10)] := by
        simp [natChars, hn]
      rw [hnat]
      have h19 : isDigit19 (Char.ofNat (48 + n / 10)) = true :=
        isDigit19_char (n / 10) (by omega) (by omega)
      have h09 : isDigit09 (Char.ofNat (48 + n % 10)) = true :=
        isDigit09_char (n % 10) (by omega)
      have hdv1 : digitVal (Char.ofNat (48 + n / 10)) = n / 10 :=
        digitVal_char (n / 10) (by omega)
      have hdv2 : digitVal (Char.ofNat (48 + n % 10)) = n % 10 :=
        digitVal_char (n % 10) (by omega)
      rw [show ([Char.ofNat (48 + n / 10), Char.ofNat (48 + n % 10)] ++ decor
          ++ rest) =
        Char.ofNat (48 + n / 10) :: (Char.ofNat (48 + n % 10) ::
          (decor ++ rest)) by simp]
      rw [placeHolderSub_percent_digit _ _ h19]
      have hE := eatDecor_append decor rest hd hr
      simp only [h09, if_true, hdv1, hdv2, hE]
      rw [Nat.div_add_mod n 10]
  · rfl

/-- Witness for C6: `%7!s!` followed by a space is a full match with number 7
and decorations `!s!`; the match becomes the slot for 6 and the decorations
are discarded. -/
theorem claim_C6_witness :
    (1 ≤ 7 ∧ 7 ≤ 99 ∧ ['!', 's', '!'] ∈ decorations ∧
      headSafe [' '] = true) ∧
    placeHolderSub ('%' :: (natChars 7 ++ ['!', 's', '!'] ++ [' '])) =
      placeHolderSlot 6 ++ placeHolderSub [' '] :=
  ⟨⟨by decide, by decide, by decide, by decide⟩,
   claim_C6.1 7 ['!', 's', '!'] [' '] (by decide) (by decide) (by decide)
     (by decide)⟩

/-! ## Lemmas for the refinement of `GetMessage` -/

theorem filter_eq_find_toList {α β : Type} [BEq α] [LawfulBEq α]
    (l : List (α × β)) (x : α) (h : (l.map Prod.fst).Nodup) :
    l.filter (fun r => r.1 == x) = (l.find? (fun r => r.1 == x)).toList := by
  induction l with
  | nil => rfl
  | cons a t ih =>
    simp only [List.map_cons, List.nodup_cons] at h
    by_cases hax : (a.1 == x) = true
    · have hax1 : a.1 = x := eq_of_beq hax
      have ht : t.filter (fun r => r.1 == x) = [] := by
        rw [List.filter_eq_nil_iff]
        intro r hrmem hbeq
        have hrx : r.1 = x := eq_of_beq hbeq
        exact h.1 (List.mem_map.mpr ⟨r, hrmem, hrx.trans hax1.symm⟩)
      rw [List.filter_cons, List.find?_cons]
      simp [hax, ht]
    · rw [List.filter_cons, List.find?_cons]
      simp only [hax, if_false]
      rw [ih h.2]
      simp [hax]

theorem getEventLogProviderKey_wf (st : Store) (log_source : String)
    (h : (st.providers.map Prod.fst).Nodup) :
    getEventLogProviderKey st log_source =
      .ok ((st.providers.find? (fun r => r.1 == log_source)).map
        (fun p => p.2)) := by
  unfold getEventLogProviderKey
  rw [filter_eq_find_toList _ _ h]
  cases st.providers.find? (fun r => r.1 == log_source) <;> rfl

theorem getMessageRaw_wf (st : Store) (message_file_key : Int)
    (lcid message_identifier : Nat)
    (h : ∀ t ∈ st.messageTables, (t.2.map Prod.fst).Nodup) :
    getMessageRaw st message_file_key lcid message_identifier =
      .ok (specMessageLookup st message_file_key lcid message_identifier) := by
  unfold getMessageRaw specMessageLookup
  cases hf : st.messageTables.find?
      (fun t => t.1.1 == message_file_key && t.1.2 == lcid) with
  | none => rfl
  | some t =>
    have ht := h t (List.mem_of_find?_eq_some hf)
    show (match t.2.filter (fun r => r.1 == message_identifier) with
      | [] => (Except.ok none : Except String (Option String))
      | [v] => Except.ok (some v.2)
      | _ => Except.error "More than one value found in database.") =
      Except.ok ((t.2.find? (fun r => r.1 == message_identifier)).map
        (fun r => r.2))
    rw [filter_eq_find_toList _ _ ht]
    cases t.2.find? (fun r => r.1 == message_identifier) <;> rfl

theorem specMessageLookup_ne_empty (st : Store) (message_file_key : Int)
    (lcid message_identifier : Nat)
    (hE : ∀ t ∈ st.messageTables, ∀ r ∈ t.2, r.2 ≠ "") (s : String)
    (hs : specMessageLookup st message_file_key lcid message_identifier =
      some s) : s ≠ "" := by
  unfold specMessageLookup at hs
  cases hf : st.messageTables.find?
      (fun t => t.1.1 == message_file_key && t.1.2 == lcid) with
  | none => rw [hf] at hs; cases hs
  | some t =>
    rw [hf] at hs
    obtain ⟨r, hr, hsr⟩ := Option.map_eq_some'.mp hs
    have hrmem := List.mem_of_find?_eq_some hr
    have := hE t (List.mem_of_find?_eq_some hf) r hrmem
    rw [← hsr]
    exact this

theorem messageLoop_wf (st : Store) (lcid message_identifier : Nat)
    (hN : ∀ t ∈ st.messageTables, (t.2.map Prod.fst).Nodup)
    (hE : ∀ t ∈ st.messageTables, ∀ r ∈ t.2, r.2 ≠ "") :
    ∀ keys : List Int, messageLoop st lcid message_identifier keys =
      .ok (keys.findSome? (fun fk =>
        match specMessageLookup st fk lcid message_identifier with
        | none => none
        | some s => if s != "" then some s else none)) := by
  intro keys
  induction keys with
  | nil => rfl
  | cons k ks ih =>
    cases ks with
    | nil =>
      show getMessageRaw st k lcid message_identifier = _
      rw [getMessageRaw_wf st k lcid message_identifier hN]
      cases hsl : specMessageLookup st k lcid message_identifier with
      | none => simp [List.findSome?_cons, hsl]
      | some s =>
        have hne : s ≠ "" :=
          specMessageLookup_ne_empty st k lcid message_identifier hE s hsl
        simp [List.findSome?_cons, hsl, hne]
    | cons k2 ks2 =>
      show (match getMessageRaw st k lcid message_identifier with
        | Except.error e => (Except.error e : Except String (Option String))
        | Except.ok m =>
          if strTruthy m then Except.ok m
          else messageLoop st lcid message_identifier (k2 :: ks2)) = _
      rw [getMessageRaw_wf st k lcid message_identifier hN]
      cases hsl : specMessageLookup st k lcid message_identifier with
      | none => simp [List.findSome?_cons, hsl, strTruthy, ih]
      | some s =>
        have hne : s ≠ "" :=
          specMessageLookup_ne_empty st k lcid message_identifier hE s hsl
        have : strTruthy (some s) = true := by simp [strTruthy, hne]
        simp [List.findSome?_cons, hsl, this, hne]

/-- C2: over every well-formed open store, the top-level `GetMessage` equals
the specification-side lookup — resolve the provider key (miss → none),
short-circuit on the first message-file key whose table yields a non-empty
string, normalize under the native `'wrc'` format and return unchanged under
`'pep3101'`; and on the concrete end-to-end store, `GetMessageString` for
`"Application Error"` and identifier 1 returns
`"Process {0:s} failed with {1:s}"`. -/
theorem claim_C2 :
    (∀ (st : Store) (string_format log_source : String)
      (lcid message_identifier : Nat),
      wellFormedStore st →
      readerGetMessage st string_format log_source lcid message_identifier =
        .ok (specGetMessage st string_format log_source lcid
          message_identifier)) ∧
    wellFormedStore exampleStore ∧
    helperGetMessageString (envOver exampleStore) freshHelper
        "Application Error" 1 =
      (.ok (some "Process \x7b0:s\x7d failed with \x7b1:s\x7d"),
       { data_location := some "data", lcid := DEFAULT_LCID,
         reader := some { store := exampleStore, stringFormat := "wrc" } },
       [DEFAULT_LCID]) := by
  refine ⟨?_, by decide, rfl⟩
  intro st fmt ls lcid mid hw
  obtain ⟨hP, hZ, hN, hE⟩ := hw
  unfold readerGetMessage specGetMessage
  rw [getEventLogProviderKey_wf st ls hP]
  cases hf : st.providers.find? (fun r => r.1 == ls) with
  | none => rfl
  | some p =>
    have hz : p.2 ≠ 0 := hZ p (List.mem_of_find?_eq_some hf)
    have htr : intProviderTruthy (some p.2) = true := by
      simp [intProviderTruthy, hz]
    show (if !intProviderTruthy (some p.2) then (Except.ok none :
        Except String (Option String))
      else
        match messageLoop st lcid mid
            (getMessageFileKeys st ((some p.2).getD 0)) with
        | Except.error e => Except.error e
        | Except.ok message_string =>
          if fmt == "wrc" then Except.ok (reformatMessageString message_string)
          else Except.ok message_string) = _
    rw [htr]
    simp only [Bool.not_true, Bool.false_eq_true, if_false, Option.getD_some]
    rw [messageLoop_wf st lcid mid hN hE]
    have hkeys : getMessageFileKeys st p.2 =
        (st.fileAssociations.filter (fun r => r.1 == p.2)).map
          (fun r => r.2) := rfl
    rw [hkeys]
    cases hfs : ((st.fileAssociations.filter (fun r => r.1 == p.2)).map
        (fun r => r.2)).findSome? (fun fk =>
          match specMessageLookup st fk lcid mid with
          | none => none
          | some s => if s != "" then some s else none) with
    | none =>
      by_cases hfmt : (fmt == "wrc") = true <;>
        simp [hfmt, reformatMessageString]
    | some s =>
      obtain ⟨fk, _, hffk⟩ := List.exists_of_findSome?_eq_some hfs
      have hsne : s ≠ "" := by
        cases hsl : specMessageLookup st fk lcid mid with
        | none => rw [hsl] at hffk; cases hffk
        | some s0 =>
          rw [hsl] at hffk
          have hffk2 : (if (s0 != "") = true then some s0 else none) =
              some s := hffk
          by_cases h0 : (s0 != "") = true
          · rw [if_pos h0] at hffk2
            cases hffk2
            simpa using h0
          · rw [if_neg h0] at hffk2
            cases hffk2
      have href : reformatMessageString (some s) = some (reformatCore s) := by
        simp [reformatMessageString, hsne]
      by_cases hfmt : (fmt == "wrc") = true <;>
        simp [hfmt, href]

/-- Witness for C2: the end-to-end example store is well formed, and the
refinement instantiates on it. -/
theorem claim_C2_witness :
    wellFormedStore exampleStore ∧
    readerGetMessage exampleStore "wrc" "Application Error" DEFAULT_LCID 1 =
      .ok (specGetMessage exampleStore "wrc" "Application Error" DEFAULT_LCID
        1) :=
  ⟨by decide,
   claim_C2.1 exampleStore "wrc" "Application Error" DEFAULT_LCID 1
     (by decide)⟩
